import Mathlib

/-!
Verification development for the SanShin AI RAG backend (src/backend/core.py,
src/backend/config.py).  Shallow embedding: the pure logic of the retrieval,
caching, complexity-estimation and LLM-routing code is translated to
executable Lean definitions; stateful Python code becomes explicit state
passing, Python exceptions become Option/Except, Python floats become ℚ,
and Python dicts become insertion-ordered association lists.
-/

set_option maxRecDepth 4000

namespace Rag

/-- Python-style substring prefix test on character lists. -/
def chPre : List Char → List Char → Bool
  | [], _ => true
  | _ :: _, [] => false
  | a :: n, b :: h => a = b && chPre n h

/-- Needle occurs somewhere in the haystack (character lists). -/
def chSub (n : List Char) : List Char → Bool
  | [] => n.isEmpty
  | b :: h => chPre n (b :: h) || chSub n h

/-- Python `needle in hay` for strings: substring containment
(the empty needle is contained in every string, as in Python). -/
def strHas (hay needle : String) : Bool := chSub needle.data hay.data

/-- Characters stripped by Python `str.strip()` (ASCII whitespace; the
queries and keys in this system use only these). -/
def isPyWs (c : Char) : Bool :=
  c = ' ' || c = '\t' || c = '\n' || c = '\r' || c = '\x0b' || c = '\x0c'

/-- Python `str.strip()`. -/
def pyStrip (s : String) : String :=
  ⟨((s.data.dropWhile isPyWs).reverse.dropWhile isPyWs).reverse⟩

/-- Python `str.lower()` (ASCII case folding; CJK characters are unaffected
in both Python and Lean). -/
def pyLower (s : String) : String := ⟨s.data.map Char.toLower⟩

/-- The process environment, as an association list (os.environ). -/
abbrev Env := List (String × String)

/-- Python `os.getenv(k)`: the value if the variable is set, else `none`. -/
def getenv (env : Env) (k : String) : Option String :=
  match env with
  | [] => none
  | (k2, v) :: rest => if k2 = k then some v else getenv rest k

/-- Python `os.getenv(k) or d`: the default is used when the variable is
missing or set to the empty string (falsy). -/
def envOr (env : Env) (k d : String) : String :=
  match getenv env k with
  | some v => if v = "" then d else v
  | none => d

/-- Python `os.getenv(k, d)`: the default is used only when the variable is
missing (an empty-string value is returned as is). -/
def getenvD (env : Env) (k d : String) : String :=
  (getenv env k).getD d

/-- Python `x or d` on an optional string (truthiness: None and "" are falsy). -/
def truthyOr (o : Option String) (d : String) : String :=
  match o with
  | some v => if v = "" then d else v
  | none => d

/-- `QueryResult` dataclass from core.py.  The `images` list holds dicts and
the `metadata`/`cost_estimate` dicts are modelled as association lists of
rendered values. -/
structure QueryResult where
  answer : String
  sources : List String
  source_type : String
  images : List (List (String × String)) := []
  metadata : List (String × String) := []
  cost_estimate : List (String × String) := []
  from_cache : Bool := false
deriving DecidableEq, Repr, Inhabited

/-- Python dict lookup on an insertion-ordered association list
(keys are unique; first match). -/
def dictLookup {α : Type} (es : List (String × α)) (k : String) : Option α :=
  match es with
  | [] => none
  | (k2, v) :: rest => if k2 = k then some v else dictLookup rest k

/-- Python `del d[k]` (removes the first — only — binding of the key). -/
def dictErase {α : Type} (es : List (String × α)) (k : String) : List (String × α) :=
  match es with
  | [] => []
  | (k2, v) :: rest => if k2 = k then rest else (k2, v) :: dictErase rest k

/-- Python `d[k] = v`: replaces in place if the key is present (keeping its
position in insertion order), appends otherwise. -/
def dictAssign {α : Type} (es : List (String × α)) (k : String) (v : α) :
    List (String × α) :=
  match es with
  | [] => [(k, v)]
  | (k2, v2) :: rest =>
    if k2 = k then (k, v) :: rest else (k2, v2) :: dictAssign rest k v

/-- Python `min(d.items(), key=lambda x: x[1][1])` restricted to the
(key, timestamp) part, for a dict whose values are (payload, timestamp)
pairs: the first entry with minimal timestamp (Python `min` keeps the
earliest among ties).  `none` on an empty dict (where Python raises
ValueError). -/
def minByTs {β : Type} : List (String × β × Int) → Option (String × Int)
  | [] => none
  | (k, _, ts) :: rest =>
    match minByTs rest with
    | none => some (k, ts)
    | some (k2, ts2) => if ts2 < ts then some (k2, ts2) else some (k, ts)

namespace QueryCache

/-- The configuration slice of `CacheConfig` that `QueryCache.get`/`set`
read: `enabled`, `ttl` (seconds) and `max_size`.  Time is modelled as ℤ. -/
structure Config where
  enabled : Bool
  ttl : Int
  maxSize : Nat
deriving DecidableEq, Repr

/-- The in-memory dict `self.cache : key → (result, timestamp)`, as an
insertion-ordered association list (Python dicts preserve insertion order,
and re-assigning an existing key keeps its position). -/
abbrev Entries := List (String × QueryResult × Int)

/-- `QueryCache._make_key`: md5 of `f"{query}:{mode}:{user_id}"`.  The md5
digest is modelled by the hashed string itself (md5 is deterministic and
injective for all practical purposes, and the colon-joining collisions are
reproduced exactly). -/
def makeKey (query mode userId : String) : String :=
  query ++ ":" ++ mode ++ ":" ++ userId

/-- `QueryCache.get`.  On a fresh hit the code executes
`result.from_cache = True` on the stored object and returns that same
object; in the value model the stored entry is therefore updated to the
returned value.  On an expired entry the code deletes it lazily and
returns None. -/
def get (cfg : Config) (es : Entries) (now : Int) (query mode userId : String) :
    Option QueryResult × Entries :=
  if cfg.enabled = false then (none, es)
  else
    let key := makeKey query mode userId
    match dictLookup es key with
    | none => (none, es)
    | some (r, ts) =>
      if now - ts < cfg.ttl then
        let r2 := { r with from_cache := true }
        (some r2, dictAssign es key (r2, ts))
      else
        (none, dictErase es key)

/-- `QueryCache.set`.  When the dict already holds `max_size` or more
entries the entry with the smallest stored timestamp is evicted first
(Python `min` over items); on an empty dict with `max_size = 0` Python
`min` raises ValueError, modelled as `none`.  The file-backend persistence
(`_save_file_cache`) swallows its own exceptions and does not change the
in-memory dict, so it is not modelled. -/
def set (cfg : Config) (es : Entries) (now : Int) (query mode : String)
    (r : QueryResult) (userId : String) : Option Entries :=
  if cfg.enabled = false then some es
  else
    let key := makeKey query mode userId
    if cfg.maxSize ≤ es.length then
      match minByTs es with
      | none => none
      | some (mk, _) => some (dictAssign (dictErase es mk) key (r, now))
    else
      some (dictAssign es key (r, now))

end QueryCache

namespace RefCache

/-!
Reference-level model of the same `QueryCache` class, capturing Python
object identity: `QueryResult` objects live in a heap and the dict stores
references into it.  `get` mutates the referenced object (sets
`from_cache`) and returns the reference itself, exactly as the source does.
-/

/-- Object heap; a reference is an index into it. -/
abbrev Heap := List QueryResult

/-- Read the object behind a reference. -/
def heapGet (h : Heap) (i : Nat) : QueryResult := h.getD i default

/-- Mutate the object behind a reference in place. -/
def heapModify (h : Heap) (i : Nat) (f : QueryResult → QueryResult) : Heap :=
  match h, i with
  | [], _ => []
  | r :: rest, 0 => f r :: rest
  | r :: rest, n + 1 => r :: heapModify rest n f

/-- Cache state: the heap of live objects plus the dict
`key → (object reference, timestamp)`. -/
structure St where
  heap : Heap
  entries : List (String × Nat × Int)
deriving Repr

/-- Allocate a caller-constructed `QueryResult` object on the heap
(models the Python constructor call producing a fresh object). -/
def alloc (st : St) (r : QueryResult) : St × Nat :=
  ({ st with heap := st.heap ++ [r] }, st.heap.length)

/-- `QueryCache.get` in the reference model: on a fresh hit the stored
object has its `from_cache` field mutated and its reference is returned
unchanged — the caller receives an alias of the cached object. -/
def get (cfg : QueryCache.Config) (st : St) (now : Int)
    (query mode userId : String) : Option Nat × St :=
  if cfg.enabled = false then (none, st)
  else
    let key := QueryCache.makeKey query mode userId
    match dictLookup st.entries key with
    | none => (none, st)
    | some (ref, ts) =>
      if now - ts < cfg.ttl then
        (some ref, { st with heap := heapModify st.heap ref (fun r => { r with from_cache := true }) })
      else
        (none, { st with entries := dictErase st.entries key })

/-- `QueryCache.set` in the reference model: stores the caller's reference. -/
def set (cfg : QueryCache.Config) (st : St) (now : Int) (query mode : String)
    (ref : Nat) (userId : String) : Option St :=
  if cfg.enabled = false then some st
  else
    let key := QueryCache.makeKey query mode userId
    if cfg.maxSize ≤ st.entries.length then
      match minByTs st.entries with
      | none => none
      | some (mk, _) =>
        some { st with entries := dictAssign (dictErase st.entries mk) key (ref, now) }
    else
      some { st with entries := dictAssign st.entries key (ref, now) }

/-- A caller mutating an object it holds a reference to
(models `obj.field = value` in Python). -/
def callerMutate (st : St) (ref : Nat) (f : QueryResult → QueryResult) : St :=
  { st with heap := heapModify st.heap ref f }

end RefCache

namespace KeywordIndex

/-!
`KeywordIndex.search` scoring (core.py lines 412-433).  The inverted index
`self.index : lowercased keyword → [(doc_id, weight)]` is an ordered
association list; weights (Python floats) are modelled as ℚ.  Token
extraction (`_extract_keywords`, regex-driven) produces the term set
`all_terms`; the scoring below takes that term list as input and models the
`doc_scores` accumulation exactly: an exact dictionary hit contributes
`2*weight` per (doc, weight) pair of the entry, and every indexed keyword
that contains — or is contained in — a term of length ≥ 3 contributes
`weight` per pair. -/

/-- The index dict. -/
abbrev Index := List (String × List (String × ℚ))

/-- Total weight the (doc_id, weight) list contributes to one document
(a document normally appears at most once per entry; the sum mirrors the
`doc_scores[doc_id] += ...` loop over the pairs of the entry). -/
def weightSum : List (String × ℚ) → String → ℚ
  | [], _ => 0
  | (d, w) :: rest, docId => (if d = docId then w else 0) + weightSum rest docId

/-- Exact-match branch: `if term in self.index: ... += 2 * weight`. -/
def exactScore (idx : Index) (term docId : String) : ℚ :=
  match dictLookup idx term with
  | none => 0
  | some dl => 2 * weightSum dl docId

/-- Partial-match branch: for every indexed keyword,
`if len(term) >= 3 and (term in indexed_kw or indexed_kw in term): ... += weight`.
Note that when the term itself is an indexed keyword this branch fires as
well (a string contains itself), on top of the exact-match branch. -/
def containScore (idx : Index) (term docId : String) : ℚ :=
  (idx.map (fun p =>
    if 3 ≤ term.length ∧ (strHas p.1 term || strHas term p.1) = true
    then weightSum p.2 docId else 0)).sum

/-- Score one term contributes to one document. -/
def termScore (idx : Index) (term docId : String) : ℚ :=
  exactScore idx term docId + containScore idx term docId

/-- `doc_scores[docId]` after the loop over `all_terms` (given as a
duplicate-free list, modelling the Python set). -/
def docScore (idx : Index) (terms : List String) (docId : String) : ℚ :=
  (terms.map (fun t => termScore idx t docId)).sum

end KeywordIndex

/-!
Complexity estimator (`estimate_complexity`, core.py lines 331-357) with
the thresholds and keyword lists of config.py lines 450-457.
`extract_product_models` is regex-driven; its total detected-model count
`sum(len(v) for v in products.values())` is abstracted as the function
argument `productCount` (itself a deterministic function of the query).
-/

/-- config.py `COMPLEXITY_THRESHOLDS`. -/
def COMPLEXITY_THRESHOLDS : List (String × Nat) :=
  [("query_length", 100), ("model_count", 2), ("doc_count", 5)]

/-- config.py `COMPARISON_KEYWORDS`. -/
def COMPARISON_KEYWORDS : List String :=
  ["比較", "差異", "不同", "哪個", "vs", "對比", "優缺點"]

/-- config.py `ANALYSIS_KEYWORDS`. -/
def ANALYSIS_KEYWORDS : List String :=
  ["計算", "估算", "分析", "統計", "趨勢", "預測"]

/-- `estimate_complexity(query, doc_count)`: any one signal fires ⇒
"complex", else "simple". -/
def estimate_complexity (productCount : String → Nat) (query : String)
    (docCount : Nat) : String :=
  let c1 : Bool := 100 < query.length
  let c2 : Bool := 2 ≤ productCount query
  let c3 : Bool := COMPARISON_KEYWORDS.any (fun kw => strHas query kw)
  let c4 : Bool := ANALYSIS_KEYWORDS.any (fun kw => strHas query kw)
  let c5 : Bool := 5 < docCount
  if c1 || c2 || c3 || c4 || c5 then "complex" else "simple"

namespace Search

/-!
Hybrid fan-out, fusion and deduplication (`CategorizedQASystem._search`,
core.py lines 1048-1165).  The query variants and the raw hits coming back
from the three retrieval backends (keyword index + vector-store id lookup,
BM25, vector similarity) are external inputs, given here per variant; the
candidate construction, the fingerprint deduplication (`hash(content[:200])`
against the `seen_contents` set — the md5-like `hash` is modelled by the
200-character prefix itself), the reranking step and the final `[:top_k]`
truncation are modelled from the source.
-/

/-- `SearchResult` dataclass (content, source, doc_type, score, and the
`match_type` tag stored in its metadata dict). -/
structure SearchResult where
  content : String
  source : String
  doc_type : String
  score : ℚ
  match_type : String
deriving DecidableEq, Repr

/-- The content fingerprint used for deduplication:
`hash(content[:200])`, modelled by the 200-character prefix (built on the
character list to keep it cheaply computable). -/
def fingerprintOf (r : SearchResult) : String := ⟨r.content.data.take 200⟩

/-- A keyword-index hit after the vector-store id lookup succeeded:
resolved content, source, keyword score, and whether an extracted product
model matched the content verbatim (the ×2 bonus test). -/
structure KwHit where
  content : String
  source : String
  score : ℚ
  bonus2 : Bool
deriving Repr

/-- A BM25 hit. -/
structure Bm25Hit where
  content : String
  source : String
deriving Repr

/-- A vector-similarity hit with its distance score. -/
structure VecHit where
  content : String
  source : String
  dist : ℚ
deriving Repr

/-- The hits the three backends return for one query variant. -/
structure VariantHits where
  kw : List KwHit
  bm25 : List Bm25Hit
  vec : List VecHit
deriving Repr

/-- Candidate built in the keyword loop:
`score = kw_score * 2 * bonus`, `match_type = "keyword"`. -/
def kwCand (docType : String) (h : KwHit) : SearchResult :=
  ⟨h.content, h.source, docType, h.score * 2 * (if h.bonus2 then 2 else 1), "keyword"⟩

/-- Candidate built in the BM25 loop: fixed score 1.5, `match_type = "bm25"`. -/
def bm25Cand (docType : String) (h : Bm25Hit) : SearchResult :=
  ⟨h.content, h.source, docType, 3 / 2, "bm25"⟩

/-- Candidate built in the vector loop: score `1 / (1 + distance)`,
`match_type = "vector"`. -/
def vecCand (docType : String) (h : VecHit) : SearchResult :=
  ⟨h.content, h.source, docType, 1 / (1 + h.dist), "vector"⟩

/-- The candidate stream one variant feeds into the dedup filter, in source
order: keyword hits, then the first `top_k` BM25 hits
(`bm25_docs[:top_k]`), then vector hits. -/
def variantCands (docType : String) (topK : Nat) (v : VariantHits) :
    List SearchResult :=
  v.kw.map (kwCand docType) ++ (v.bm25.take topK).map (bm25Cand docType)
    ++ v.vec.map (vecCand docType)

/-- The full candidate stream over all query variants. -/
def searchStream (docType : String) (topK : Nat) (variants : List VariantHits) :
    List SearchResult :=
  (variants.map (variantCands docType topK)).flatten

/-- The dedup loop: a candidate is appended to `results` only if its
fingerprint is not yet in the `seen_contents` set, which then records it. -/
def dedupeLoop : List SearchResult → List String → List SearchResult
  | [], _ => []
  | r :: rest, seen =>
    if fingerprintOf r ∈ seen then dedupeLoop rest seen
    else r :: dedupeLoop rest (fingerprintOf r :: seen)

/-- Declarative first-occurrence-wins filter (the behaviour the spec
describes): keep each candidate and drop every later candidate with the
same fingerprint. -/
def keepFirst : List SearchResult → List SearchResult
  | [] => []
  | r :: rest =>
    r :: keepFirst (rest.filter (fun x => fingerprintOf x ≠ fingerprintOf r))
termination_by l => l.length
decreasing_by
  simp only [List.length_cons]
  exact Nat.lt_succ_of_le (List.length_filter_le _ _)

/-- The reranker configuration and the outcome of its one external call per
search: disabled (`self._reranker is None`), the local cross-encoder (whose
`predict` scores are the given list), or the Cohere compressor (whose
returned document contents are the given list). -/
inductive RerankCfg where
  | disabled (topN : Nat)
  | localCE (topN : Nat) (scores : List ℚ)
  | cohere (topN : Nat) (rerankedContents : List String)

/-- `Reranker.rerank` (core.py lines 586-619).  Disabled: identity
truncation `results[:top_n]`.  Local: stable sort of `zip(results, scores)`
by score descending, truncate, project.  Cohere: for each returned document
(first `top_n`), append the first result whose content equals it.
The `except` fallback to `results[:top_n]` is covered by `disabled`. -/
def rerankFn (rr : RerankCfg) (results : List SearchResult) : List SearchResult :=
  if results = [] then results
  else
    match rr with
    | .disabled topN => results.take topN
    | .localCE topN scores =>
      let scored := results.zip scores
      let sorted := scored.mergeSort (fun a b => b.2 ≤ a.2)
      (sorted.take topN).map (fun p => p.1)
    | .cohere topN cs =>
      (cs.take topN).filterMap (fun c => results.find? (fun r => r.content = c))

/-- `_search` after the variant hits are in: dedup the candidate stream,
rerank if any results, truncate to `top_k`. -/
def searchFn (docType : String) (topK : Nat) (variants : List VariantHits)
    (rr : RerankCfg) : List SearchResult :=
  let res := dedupeLoop (searchStream docType topK variants) []
  let res2 := if res = [] then res else rerankFn rr res
  res2.take topK

end Search

namespace Router

/-!
LLM provider routing: `CategorizedQASystem._get_llm` (core.py lines
929-1046) and the generation-with-failover block of
`CategorizedQASystem._generate_answer` (line 1177 and lines 1224-1258).
A built client is identified by its (provider, model) pair; whether
`_build` succeeds (it raises when the provider library is missing or the
constructor fails) is the external input `buildOk`, and the outcome of
`llm.invoke(prompt)` for a given client is the external input `invoke`
(`.error msg` models a raised exception with message `str(e)`).
-/

/-- The slot names probed by `_infer_slot`, in probe order. -/
def slotNames : List String :=
  ["COMPLEX", "SIMPLE", "BUSINESS", "PERSONAL", "DEFAULT"]

/-- `_infer_slot(m)`: the first slot whose `LLM_MODEL_<slot>` env value is
set, non-empty and equal to `m`; else "DEFAULT". -/
def inferSlot (env : Env) (m : String) : String :=
  (slotNames.find? (fun s =>
    match getenv env ("LLM_MODEL_" ++ s) with
    | some v => v ≠ "" && m = v
    | none => false)).getD "DEFAULT"

/-- `_pick_model_for(provider_name, slot, primary_model)`:
`(os.getenv(f"{P}_MODEL_{slot}") or os.getenv(f"{P}_MODEL_DEFAULT") or
primary_model).strip()` with P = ANTHROPIC for anthropic, OPENAI otherwise. -/
def pickModelFor (env : Env) (providerName slot primaryModel : String) : String :=
  if providerName = "anthropic" then
    pyStrip (truthyOr (getenv env ("ANTHROPIC_MODEL_" ++ slot))
      (truthyOr (getenv env "ANTHROPIC_MODEL_DEFAULT") primaryModel))
  else
    pyStrip (truthyOr (getenv env ("OPENAI_MODEL_" ++ slot))
      (truthyOr (getenv env "OPENAI_MODEL_DEFAULT") primaryModel))

/-- `claude` → `anthropic` normalisation applied to primary/fallback names. -/
def normClaude (p : String) : String := if p = "claude" then "anthropic" else p

/-- `_get_llm(model, ...)`: resolves and builds the client, returning its
(provider, model) identity, or `none` when construction raises.  In auto
mode the primary provider is tried first and, only if its construction
fails, the fallback provider is built (the second `_build` is outside the
`try`, so its failure propagates). -/
def getLlm (env : Env) (buildOk : String → String → Bool) (model : String) :
    Option (String × String) :=
  let provider0 := pyLower (pyStrip (envOr env "LLM_PROVIDER" "openai"))
  let provider := if provider0 = "claude" then "anthropic" else provider0
  let slot := inferSlot env model
  if provider = "auto" then
    let primary := normClaude (pyLower (pyStrip (envOr env "LLM_PRIMARY" "anthropic")))
    let fallback := normClaude (pyLower (pyStrip (envOr env "LLM_FALLBACK" "openai")))
    let primaryModel := pickModelFor env primary slot model
    let fallbackModel := pickModelFor env fallback slot model
    if buildOk primary primaryModel then some (primary, primaryModel)
    else if buildOk fallback fallbackModel then some (fallback, fallbackModel)
    else none
  else if provider = "anthropic" then
    let mn := pickModelFor env "anthropic" slot model
    if buildOk "anthropic" mn then some ("anthropic", mn) else none
  else
    -- openai, and every unrecognised provider, builds openai with the model as passed
    if buildOk "openai" model then some ("openai", model) else none

/-- The quota/rate-limit classification of `_generate_answer`:
`"usage limits" in msg or "quota" in msg.lower() or "rate limit" in msg.lower()`. -/
def isQuotaError (msg : String) : Bool :=
  strHas msg "usage limits" || strHas (pyLower msg) "quota"
    || strHas (pyLower msg) "rate limit"

/-- The fallback provider `_generate_answer` computes on a quota error:
`LLM_FALLBACK` (default openai) in auto mode, else the opposite vendor. -/
def fallbackProvider (env : Env) : String :=
  let provider := pyLower (pyStrip (envOr env "LLM_PROVIDER" "openai"))
  if provider = "auto" then pyLower (pyStrip (envOr env "LLM_FALLBACK" "openai"))
  else if provider = "anthropic" ∨ provider = "claude" then "openai"
  else "anthropic"

/-- The model name `_generate_answer` requests for the fallback attempt:
always the COMPLEX-slot env model of the fallback provider, with a
hard-coded default. -/
def fallbackComplexModel (env : Env) : String :=
  if fallbackProvider env = "openai" then
    getenvD env "OPENAI_MODEL_COMPLEX" "gpt-4o"
  else
    getenvD env "ANTHROPIC_MODEL_COMPLEX" "claude-sonnet-4-20250514"

/-- Error message of the non-quota branch: `f"生成回答時發生錯誤：{e}"`. -/
def genErrMsg (e : String) : String := "生成回答時發生錯誤：" ++ e

/-- Error message after the fallback also failed (core.py line 1255). -/
def combinedFailMsg : String :=
  "生成回答時發生錯誤：主要 LLM 限額，備用 LLM 也失敗。請稍後重試。"

/-- The LLM phase of `_generate_answer`: obtain the client (outside any
`try`, so a construction failure propagates — `.error ()`), invoke it, and
on a quota-classified failure make one fallback attempt through
`_get_llm(fallback_model)`; any exception inside that inner `try` is
absorbed into the combined failure message.  Returns the answer together
with the trace of clients actually invoked. -/
def generateAnswerLlm (env : Env) (buildOk : String → String → Bool)
    (invoke : String × String → Except String String) (model : String) :
    Except Unit (String × List (String × String)) :=
  match getLlm env buildOk model with
  | none => .error ()
  | some llm =>
    match invoke llm with
    | .ok ans => .ok (ans, [llm])
    | .error e =>
      if isQuotaError e then
        match getLlm env buildOk (fallbackComplexModel env) with
        | none => .ok (combinedFailMsg, [llm])
        | some fllm =>
          match invoke fllm with
          | .ok ans2 => .ok (ans2, [llm, fllm])
          | .error _ => .ok (combinedFailMsg, [llm, fllm])
      else .ok (genErrMsg e, [llm])

end Router

/-- `DocumentType` enum. -/
inductive DocumentType where
  | technical
  | business
  | personal
  | mixed
deriving DecidableEq, Repr

/-- `DocumentType.value`. -/
def DocumentType.value : DocumentType → String
  | .technical => "technical"
  | .business => "business"
  | .personal => "personal"
  | .mixed => "mixed"

/-- The heterogeneous info dict `ask` returns, modelled by the keys the
code actually writes (`images`, `sources`, `cost_estimate`, `from_cache`;
`none` = key absent) plus a rendered association list for any further keys
carried by the personal/business sub-results.  The empty dict `{}` is the
value with every field at its default. -/
structure AskInfo where
  images : Option (List (List (String × String))) := none
  sources : Option (List String) := none
  cost_estimate : Option (List (String × String)) := none
  from_cache : Option Bool := none
  extra : List (String × String) := []
deriving DecidableEq, Repr

namespace CategorizedQASystem

/-!
`CategorizedQASystem.ask` (core.py lines 1293-1375).  The collaborators it
calls are external inputs: `_ask_personal` and `_ask_business` catch their
own exceptions and always return an (answer, source_type, info) triple;
`QueryClassifier.classify_query` is deterministic; `_search` absorbs
backend failures and returns a result list; `_generate_answer` returns
(answer, cost) but can raise while obtaining the LLM client (the
`_get_llm` call at line 1177 sits outside its `try`/`except`), which the
`gen` field models as `.error ()` — exactly the outcome
`Router.generateAnswerLlm` produces in that case.
-/

/-- Outcomes of the collaborators for the query being served. -/
structure AskDeps where
  personal : String × String × AskInfo
  classified : DocumentType
  business : String × String × AskInfo
  searchResults : List Search.SearchResult
  gen : Except Unit (String × List (String × String))

/-- The technical-path tail of `ask`: fan-out search already done, generate
the answer, cache and return. -/
def askGenerate (cfg : QueryCache.Config) (es : QueryCache.Entries) (now : Int)
    (query mode userId : String) (deps : AskDeps) (docType : DocumentType) :
    Except Unit ((String × String × AskInfo) × QueryCache.Entries) :=
  if docType = DocumentType.business then .ok (deps.business, es)
  else if deps.searchResults = [] then
    .ok (("未找到相關資料。請嘗試不同的關鍵字。", docType.value, {}), es)
  else
    match deps.gen with
    | .error _ => .error ()
    | .ok (answer, cost) =>
      let srcs := (deps.searchResults.filter (fun r => r.source ≠ "")).map
        (fun r => r.source)
      let info : AskInfo :=
        { sources := some srcs, cost_estimate := some cost, from_cache := some false }
      let result : QueryResult :=
        { answer := answer, sources := srcs, source_type := docType.value,
          cost_estimate := cost }
      match QueryCache.set cfg es now query mode result userId with
      | none => .error ()
      | some es2 => .ok ((answer, docType.value, info), es2)

/-- `ask` after the empty-query guard and the cache probe: the smart-mode
personal-KB branch, then classification and dispatch. -/
def askRoute (cfg : QueryCache.Config) (es : QueryCache.Entries) (now : Int)
    (query mode userId : String) (deps : AskDeps) :
    Except Unit ((String × String × AskInfo) × QueryCache.Entries) :=
  if mode = "smart" ∧ userId ≠ "" ∧ userId ≠ "default"
      ∧ strHas deps.personal.1 "未找到" = false
      ∧ strHas deps.personal.1 "尚無文件" = false then
    let pr := deps.personal
    let result : QueryResult :=
      { answer := pr.1, sources := pr.2.2.sources.getD [],
        source_type := "personal", images := pr.2.2.images.getD [] }
    match QueryCache.set cfg es now query mode result userId with
    | none => .error ()
    | some es2 => .ok (pr, es2)
  else if mode = "smart" then
    askGenerate cfg es now query mode userId deps deps.classified
  else if mode = "personal" then .ok (deps.personal, es)
  else
    askGenerate cfg es now query mode userId deps
      (if mode = "technical" then DocumentType.technical
       else if mode = "business" then DocumentType.business
       else DocumentType.technical)

/-- `ask(query, mode, user_id)`: empty-query guard, strip, cache probe,
then routing.  `.error ()` models an exception propagating to the caller. -/
def ask (cfg : QueryCache.Config) (es : QueryCache.Entries) (now : Int)
    (query mode userId : String) (deps : AskDeps) :
    Except Unit ((String × String × AskInfo) × QueryCache.Entries) :=
  if query = "" ∨ pyStrip query = "" then
    .ok (("請輸入有效的問題。", "error", {}), es)
  else
    let q := pyStrip query
    match QueryCache.get cfg es now q mode userId with
    | (some c, es1) =>
      .ok ((c.answer, c.source_type,
        { images := some c.images, sources := some c.sources,
          cost_estimate := some c.cost_estimate, from_cache := some true }), es1)
    | (none, es1) => askRoute cfg es1 now q mode userId deps

end CategorizedQASystem

/-! ### Concrete scenario constants used by witnesses and counterexamples -/

/-- Concrete cache configuration for the C4 witness. -/
def c4cfg : QueryCache.Config := ⟨true, 10, 5⟩

/-- Concrete result stored in the C4 witness. -/
def c4r : QueryResult :=
  { answer := "ans", sources := ["s.md"], source_type := "technical" }

/-- The entries produced by the C4 witness `set`. -/
def c4es2 : QueryCache.Entries := [(QueryCache.makeKey "q" "m" "u", c4r, 0)]

/-- Cache configuration with capacity 2 used by the C5 scenario. -/
def c5cfg : QueryCache.Config := ⟨true, 100, 2⟩

/-- Result value used by the C5 scenario. -/
def c5r : QueryResult := { answer := "a", sources := [], source_type := "technical" }

/-- Cache holding q1 (written at t=0) and q2 (written at t=1). -/
def c5e2 : QueryCache.Entries :=
  [(QueryCache.makeKey "q1" "m" "u", c5r, 0), (QueryCache.makeKey "q2" "m" "u", c5r, 1)]

/-- The cache state after additionally serving a successful `get` of q1 at
t=5 (so q1 is the most recently accessed key). -/
def c5afterGet : Option QueryResult × QueryCache.Entries :=
  QueryCache.get c5cfg c5e2 5 "q1" "m" "u"

/-- The state after then inserting a third distinct key q3 at t=6. -/
def c5final : Option QueryCache.Entries :=
  QueryCache.set c5cfg c5afterGet.2 6 "q3" "m" c5r "u"

/-- Cache configuration for the C6 scenario. -/
def c6cfg : QueryCache.Config := ⟨true, 100, 10⟩

/-- The original result object cached in the C6 scenario. -/
def c6r : QueryResult :=
  { answer := "original", sources := [], source_type := "technical" }

/-- C6 scenario: allocate a result object, cache it, `get` it, mutate the
object `get` returned, then `get` again; the final value is the answer
field the second `get` observes. -/
def c6run : Option String :=
  let a := RefCache.alloc ⟨[], []⟩ c6r
  (RefCache.set c6cfg a.1 0 "q" "m" a.2 "u").bind fun st2 =>
  let g1 := RefCache.get c6cfg st2 1 "q" "m" "u"
  g1.1.bind fun ref =>
  let st4 := RefCache.callerMutate g1.2 ref (fun r => { r with answer := "mutated" })
  let g2 := RefCache.get c6cfg st4 2 "q" "m" "u"
  g2.1.map fun ref2 => (RefCache.heapGet g2.2.heap ref2).answer

/-- Environment for the C1 scenario: auto routing, anthropic primary with
openai fallback, and a SIMPLE-slot call (`claude-s`); every provider has a
model configured for the SIMPLE slot. -/
def c1env : Env :=
  [("LLM_PROVIDER", "auto"), ("LLM_PRIMARY", "anthropic"),
   ("LLM_FALLBACK", "openai"),
   ("LLM_MODEL_SIMPLE", "claude-s"),
   ("ANTHROPIC_MODEL_SIMPLE", "claude-s"),
   ("ANTHROPIC_MODEL_DEFAULT", "claude-d"),
   ("OPENAI_MODEL_SIMPLE", "gpt-s"), ("OPENAI_MODEL_COMPLEX", "gpt-c")]

/-- Invocation outcomes for the C1 scenario: the anthropic vendor always
hits its quota, the openai vendor would answer. -/
def c1invoke (c : String × String) : Except String String :=
  if c.1 = "anthropic" then .error "quota exceeded" else .ok "fallback answer"

/-- Collaborator outcomes for the C2 counterexample: the retrieval search
found one document and `_generate_answer` raised while obtaining the LLM
client. -/
def c2deps : CategorizedQASystem.AskDeps :=
  { personal := ("p", "personal", {}), classified := .technical,
    business := ("b", "business", {}),
    searchResults := [⟨"doc content", "doc.md", "technical", 1, "keyword"⟩],
    gen := .error () }

/-- Index for the C8 counterexample: document A indexed under exactly the
token `abc` (weight 1); document B indexed under four tokens `abcd`,
`abce`, `abcf`, `abcg` (weight 1 each), every one a superstring of `abc`
and none equal to it. -/
def c8idx : KeywordIndex.Index :=
  [("abc", [("A", 1)]), ("abcd", [("B", 1)]), ("abce", [("B", 1)]),
   ("abcf", [("B", 1)]), ("abcg", [("B", 1)])]

/-- The duplicate-freedom the external reranker call is contracted to
deliver (spec 4.3: a reranker re-scores the already-retrieved candidate
set): the Cohere compressor must not return the same document content
twice; the disabled and local backends need nothing. -/
def rerankDupFree : Search.RerankCfg → Prop
  | .cohere _ cs => cs.Nodup
  | _ => True

/-! ### Association-list lemmas -/

theorem dictLookup_assign_self {α : Type} (es : List (String × α)) (k : String)
    (v : α) : dictLookup (dictAssign es k v) k = some v := by
  induction es with
  | nil => simp [dictAssign, dictLookup]
  | cons e rest ih =>
    by_cases h : e.1 = k
    · simp [dictAssign, dictLookup, h]
    · simp [dictAssign, dictLookup, h, ih]

theorem mem_keys_dictAssign {α : Type} {es : List (String × α)} {k x : String}
    {v : α} (hx : x ∈ (dictAssign es k v).map Prod.fst) :
    x = k ∨ x ∈ es.map Prod.fst := by
  induction es with
  | nil =>
    simp only [dictAssign, List.map_cons, List.map_nil, List.mem_singleton] at hx
    exact Or.inl hx
  | cons e rest ih =>
    obtain ⟨k2, v2⟩ := e
    by_cases h : k2 = k
    · simp only [dictAssign, h, if_pos, List.map_cons, List.mem_cons] at hx
      rcases hx with hx | hx
      · exact Or.inl hx
      · exact Or.inr (by simp only [List.map_cons, List.mem_cons]; exact Or.inr hx)
    · simp only [dictAssign, h, if_neg, ite_false, List.map_cons, List.mem_cons] at hx
      rcases hx with hx | hx
      · exact Or.inr (by simp only [List.map_cons, List.mem_cons]; exact Or.inl hx)
      · rcases ih hx with h1 | h1
        · exact Or.inl h1
        · exact Or.inr (by simp only [List.map_cons, List.mem_cons]; exact Or.inr h1)

theorem nodupKeys_dictAssign {α : Type} {es : List (String × α)}
    (hnd : (es.map Prod.fst).Nodup) (k : String) (v : α) :
    ((dictAssign es k v).map Prod.fst).Nodup := by
  induction es with
  | nil => simp [dictAssign]
  | cons e rest ih =>
    obtain ⟨k2, v2⟩ := e
    simp only [List.map_cons, List.nodup_cons] at hnd
    by_cases h : k2 = k
    · simp only [dictAssign, h, if_pos, List.map_cons, List.nodup_cons]
      exact ⟨by simpa [h] using hnd.1, hnd.2⟩
    · simp only [dictAssign, h, if_neg, ite_false, List.map_cons, List.nodup_cons]
      refine ⟨fun hmem => ?_, ih hnd.2⟩
      rcases mem_keys_dictAssign hmem with h1 | h1
      · exact h h1
      · exact hnd.1 h1

theorem dictErase_sublist {α : Type} (es : List (String × α)) (k : String) :
    List.Sublist (dictErase es k) es := by
  induction es with
  | nil => simp [dictErase]
  | cons e rest ih =>
    obtain ⟨k2, v2⟩ := e
    by_cases h : k2 = k
    · simp only [dictErase, h, if_pos]
      exact List.sublist_cons_self _ rest
    · simp only [dictErase, h, if_neg, ite_false]
      exact ih.cons₂ (k2, v2)

theorem nodupKeys_dictErase {α : Type} {es : List (String × α)}
    (hnd : (es.map Prod.fst).Nodup) (k : String) :
    ((dictErase es k).map Prod.fst).Nodup :=
  ((dictErase_sublist es k).map Prod.fst).nodup hnd

theorem dictLookup_eq_none_of_not_mem_keys {α : Type} {es : List (String × α)}
    {k : String} (h : k ∉ es.map Prod.fst) : dictLookup es k = none := by
  induction es with
  | nil => rfl
  | cons e rest ih =>
    simp only [List.map_cons, List.mem_cons, not_or] at h
    have h1 : e.1 ≠ k := fun hk => h.1 hk.symm
    simp [dictLookup, h1, ih h.2]

theorem dictLookup_erase_self {α : Type} {es : List (String × α)}
    (hnd : (es.map Prod.fst).Nodup) (k : String) :
    dictLookup (dictErase es k) k = none := by
  induction es with
  | nil => rfl
  | cons e rest ih =>
    simp only [List.map_cons, List.nodup_cons] at hnd
    by_cases h : e.1 = k
    · simp only [dictErase, h, if_pos]
      exact dictLookup_eq_none_of_not_mem_keys (by simpa [h] using hnd.1)
    · simp only [dictErase, h, if_neg, ite_false, dictLookup]
      simp [h, ih hnd.2]

theorem minByTs_isSome {β : Type} {es : List (String × β × Int)} (h : es ≠ []) :
    ∃ p, minByTs es = some p := by
  cases es with
  | nil => exact absurd rfl h
  | cons e rest =>
    simp only [minByTs]
    cases minByTs rest with
    | none => exact ⟨_, rfl⟩
    | some p =>
      by_cases h2 : p.2 < e.2.2
      · exact ⟨p, by simp [h2]⟩
      · exact ⟨(e.1, e.2.2), by simp [h2]⟩

theorem minByTs_eq_none {β : Type} {es : List (String × β × Int)}
    (h : minByTs es = none) : es = [] := by
  cases es with
  | nil => rfl
  | cons e rest =>
    exfalso
    obtain ⟨k, b, ts⟩ := e
    simp only [minByTs] at h
    cases hmr : minByTs rest with
    | none => rw [hmr] at h; cases h
    | some q =>
      obtain ⟨k2, ts2⟩ := q
      rw [hmr] at h
      by_cases hlt : ts2 < ts <;> simp [hlt] at h

theorem minByTs_le {β : Type} {es : List (String × β × Int)} {mk : String}
    {mt : Int} (h : minByTs es = some (mk, mt)) :
    ∀ p ∈ es, mt ≤ p.2.2 := by
  induction es generalizing mk mt with
  | nil => simp [minByTs] at h
  | cons e rest ih =>
    intro p hp
    obtain ⟨k, b, ts⟩ := e
    simp only [minByTs] at h
    rcases List.mem_cons.mp hp with hpe | hpr
    all_goals cases hmr : minByTs rest with
    | none =>
      rw [hmr] at h
      simp only [Option.some.injEq, Prod.mk.injEq] at h
      first
      | (subst hpe; simp only; omega)
      | (rw [minByTs_eq_none hmr] at hpr; cases hpr)
    | some q =>
      obtain ⟨k2, ts2⟩ := q
      rw [hmr] at h
      by_cases hlt : ts2 < ts <;>
        simp only [hlt, if_pos, if_neg, ite_false, Option.some.injEq,
          Prod.mk.injEq] at h
      case pos =>
        first
        | (subst hpe; simp only; omega)
        | (have h5 := ih hmr p hpr; omega)
      case neg =>
        first
        | (subst hpe; simp only; omega)
        | (have h5 := ih hmr p hpr; omega)

theorem minByTs_mem {β : Type} {es : List (String × β × Int)} {mk : String}
    {mt : Int} (h : minByTs es = some (mk, mt)) :
    ∃ b, (mk, b, mt) ∈ es := by
  induction es generalizing mk mt with
  | nil => simp [minByTs] at h
  | cons e rest ih =>
    obtain ⟨k, b, ts⟩ := e
    simp only [minByTs] at h
    cases hmr : minByTs rest with
    | none =>
      rw [hmr] at h
      simp only [Option.some.injEq, Prod.mk.injEq] at h
      exact ⟨b, by simp [h.1.symm, h.2.symm]⟩
    | some q =>
      obtain ⟨k2, ts2⟩ := q
      rw [hmr] at h
      by_cases hlt : ts2 < ts <;>
        simp only [hlt, if_pos, if_neg, ite_false, Option.some.injEq,
          Prod.mk.injEq] at h
      case pos =>
        obtain ⟨b2, hb2⟩ := ih (by rw [hmr, h.1, h.2])
        exact ⟨b2, List.mem_cons_of_mem _ hb2⟩
      case neg =>
        exact ⟨b, by simp [h.1.symm, h.2.symm]⟩

theorem heapGet_heapModify {h : RefCache.Heap} {i : Nat}
    (hi : i < h.length) (f : QueryResult → QueryResult) :
    RefCache.heapGet (RefCache.heapModify h i f) i = f (RefCache.heapGet h i) := by
  induction h generalizing i with
  | nil => simp at hi
  | cons r rest ih =>
    cases i with
    | zero => simp [RefCache.heapModify, RefCache.heapGet]
    | succ n =>
      simp only [RefCache.heapModify, RefCache.heapGet, List.getD_cons_succ]
      exact ih (by simpa using hi)

/-! ### Claim C4: cache round-trip -/

/-- Whenever `QueryCache.set` succeeds, the new state is a dict assignment
of `(r, now)` to the key over a base dict with duplicate-free keys. -/
theorem set_shape {cfg : QueryCache.Config} {es es2 : QueryCache.Entries}
    {now : Int} {q m u : String} {r : QueryResult}
    (hen : cfg.enabled = true)
    (hnd : (es.map Prod.fst).Nodup)
    (hset : QueryCache.set cfg es now q m r u = some es2) :
    ∃ base, (base.map Prod.fst).Nodup ∧
      es2 = dictAssign base (QueryCache.makeKey q m u) (r, now) := by
  by_cases hcap : cfg.maxSize ≤ es.length
  · cases hmin : minByTs es with
    | none =>
      exfalso
      simp only [QueryCache.set, hen, hcap, hmin, if_pos, if_neg] at hset
      simp at hset
    | some p =>
      obtain ⟨mk, mt⟩ := p
      refine ⟨dictErase es mk, nodupKeys_dictErase hnd mk, ?_⟩
      simp only [QueryCache.set, hen, hcap, hmin, if_pos, if_neg] at hset
      simp only [Bool.true_eq_false, ite_false, if_pos hcap] at hset
      exact (Option.some.injEq _ _ ▸ hset).symm
  · refine ⟨es, hnd, ?_⟩
    simp only [QueryCache.set, hen] at hset
    simp only [Bool.true_eq_false, ite_false, if_neg hcap] at hset
    exact (Option.some.injEq _ _ ▸ hset).symm

/-- C4 (confirmed): for every (query, mode, userId) and result `r`, a
successful `set` immediately followed by `get` returns the stored result
as long as the entry's age is under the TTL, and returns a miss — lazily
deleting the entry — once the age is at least the TTL.  The value returned
on the hit is the stored object itself with its `from_cache` flag set by
`get` (in Python the returned object is `r`, mutated in place, so the
Python comparison `get(...) == r` holds); all other fields are exactly
those of `r`. -/
theorem C4_cache_round_trip (cfg : QueryCache.Config)
    (es es2 : QueryCache.Entries) (now1 now2 : Int) (q m u : String)
    (r : QueryResult)
    (hen : cfg.enabled = true)
    (hnd : (es.map Prod.fst).Nodup)
    (hset : QueryCache.set cfg es now1 q m r u = some es2) :
    (now2 - now1 < cfg.ttl →
      (QueryCache.get cfg es2 now2 q m u).1 = some { r with from_cache := true }) ∧
    (cfg.ttl ≤ now2 - now1 →
      (QueryCache.get cfg es2 now2 q m u).1 = none ∧
      dictLookup (QueryCache.get cfg es2 now2 q m u).2
        (QueryCache.makeKey q m u) = none) := by
  obtain ⟨base, hbnd, rfl⟩ := set_shape hen hnd hset
  have hl := dictLookup_assign_self base (QueryCache.makeKey q m u) (r, now1)
  have hnd2 := nodupKeys_dictAssign hbnd (QueryCache.makeKey q m u) (r, now1)
  constructor
  · intro hfresh
    simp only [QueryCache.get, hen, Bool.true_eq_false, ite_false, hl,
      if_pos hfresh]
  · intro hstale
    have hnl : ¬ (now2 - now1 < cfg.ttl) := by omega
    simp only [QueryCache.get, hen, Bool.true_eq_false, ite_false, hl,
      if_neg hnl]
    exact ⟨trivial, dictLookup_erase_self hnd2 _⟩

/-- Witness for C4 at a concrete input: a hit at age 3 < ttl 10 and a
lazy-deleting miss at age 20 ≥ 10. -/
theorem C4_cache_round_trip_w :
    ((QueryCache.get c4cfg c4es2 3 "q" "m" "u").1
        = some { c4r with from_cache := true }) ∧
    ((QueryCache.get c4cfg c4es2 20 "q" "m" "u").1 = none ∧
      dictLookup (QueryCache.get c4cfg c4es2 20 "q" "m" "u").2
        (QueryCache.makeKey "q" "m" "u") = none) :=
  ⟨(C4_cache_round_trip c4cfg [] c4es2 0 3 "q" "m" "u" c4r rfl (by simp)
      (by decide)).1 (by decide),
   (C4_cache_round_trip c4cfg [] c4es2 0 20 "q" "m" "u" c4r rfl (by simp)
      (by decide)).2 (by decide)⟩

/-! ### Claim C5: eviction policy -/

/-- C5 counterexample: with capacity 2, after writing q1 (t=0) and q2
(t=1) and then successfully reading q1 at t=5, inserting q3 evicts q1 —
the most recently accessed entry — and keeps q2, because `set` picks its
victim by the stored write timestamp and `get` never refreshes it.  This
refutes the claim that a successful `get` counts as an access for the
eviction order. -/
theorem C5_lru_eviction_cex :
    c5afterGet.1.isSome = true ∧
    (c5final.map fun es =>
      ((dictLookup es (QueryCache.makeKey "q1" "m" "u")).isNone,
       (dictLookup es (QueryCache.makeKey "q2" "m" "u")).isSome))
      = some (true, true) := by decide

/-- C5 (corrected): when the cache is at capacity, `set` evicts exactly
one entry, namely the first entry whose stored timestamp is minimal; that
timestamp is the time of the entry's last `set` (insertion/overwrite), not
of its last access, since `get` leaves timestamps unchanged.  The theorem
states the exact resulting dict, that the victim is an existing entry, and
that its timestamp is a lower bound of all stored timestamps. -/
theorem C5_eviction_by_write_time (cfg : QueryCache.Config)
    (es : QueryCache.Entries) (now : Int) (q m u : String) (r : QueryResult)
    (mk : String) (mt : Int)
    (hen : cfg.enabled = true)
    (hcap : cfg.maxSize ≤ es.length)
    (hmin : minByTs es = some (mk, mt)) :
    QueryCache.set cfg es now q m r u
      = some (dictAssign (dictErase es mk) (QueryCache.makeKey q m u) (r, now)) ∧
    (∀ p ∈ es, mt ≤ p.2.2) ∧ (∃ b, (mk, b, mt) ∈ es) := by
  refine ⟨?_, minByTs_le hmin, minByTs_mem hmin⟩
  simp only [QueryCache.set, hen, Bool.true_eq_false, ite_false, if_pos hcap,
    hmin]

/-- Witness for C5 (corrected) at a concrete input: inserting q3 into the
full cache `c5e2` evicts q1, whose write timestamp 0 is minimal. -/
theorem C5_eviction_by_write_time_w :
    QueryCache.set c5cfg c5e2 9 "q3" "m" c5r "u"
      = some (dictAssign (dictErase c5e2 (QueryCache.makeKey "q1" "m" "u"))
          (QueryCache.makeKey "q3" "m" "u") (c5r, 9)) ∧
    (∀ p ∈ c5e2, (0:Int) ≤ p.2.2) ∧
    (∃ b, (QueryCache.makeKey "q1" "m" "u", b, (0:Int)) ∈ c5e2) :=
  C5_eviction_by_write_time c5cfg c5e2 9 "q3" "m" "u" c5r
    (QueryCache.makeKey "q1" "m" "u") 0 rfl (by decide) (by decide)

/-! ### Claim C6: aliasing on cache hits -/

/-- C6 counterexample: mutating the object returned by a cache hit changes
what the next `get` of the same key returns — the hit hands out an alias
of the cached object, not a copy.  The caller writes "mutated" into the
returned object and the subsequent `get` observes "mutated" instead of
the originally cached "original". -/
theorem C6_copy_on_hit_cex :
    c6run = some "mutated" ∧ c6r.answer = "original" := by decide

/-- C6 (corrected): on a fresh hit, `get` returns exactly the reference
stored in the cache entry (an alias of the cached object), leaves the
entry pointing at that same object, and its only effect on the object is
setting `from_cache := true`; callers mutating the returned object
therefore mutate the cached original, and subsequent `get`s see it. -/
theorem C6_get_returns_alias (cfg : QueryCache.Config) (st : RefCache.St)
    (now : Int) (q m u : String) (ref : Nat) (ts : Int)
    (hen : cfg.enabled = true)
    (hl : dictLookup st.entries (QueryCache.makeKey q m u) = some (ref, ts))
    (hfresh : now - ts < cfg.ttl)
    (href : ref < st.heap.length) :
    (RefCache.get cfg st now q m u).1 = some ref ∧
    dictLookup ((RefCache.get cfg st now q m u).2).entries
      (QueryCache.makeKey q m u) = some (ref, ts) ∧
    RefCache.heapGet ((RefCache.get cfg st now q m u).2).heap ref
      = { RefCache.heapGet st.heap ref with from_cache := true } := by
  simp only [RefCache.get, hen, Bool.true_eq_false, ite_false, hl,
    if_pos hfresh]
  exact ⟨trivial, trivial, heapGet_heapModify href _⟩

/-- Witness for C6 (corrected) at a concrete input. -/
theorem C6_get_returns_alias_w :
    (RefCache.get c6cfg ⟨[c6r], [(QueryCache.makeKey "q" "m" "u", 0, 0)]⟩
        1 "q" "m" "u").1 = some 0 ∧
    dictLookup ((RefCache.get c6cfg
        ⟨[c6r], [(QueryCache.makeKey "q" "m" "u", 0, 0)]⟩ 1 "q" "m" "u").2).entries
      (QueryCache.makeKey "q" "m" "u") = some (0, 0) ∧
    RefCache.heapGet ((RefCache.get c6cfg
        ⟨[c6r], [(QueryCache.makeKey "q" "m" "u", 0, 0)]⟩ 1 "q" "m" "u").2).heap 0
      = { RefCache.heapGet [c6r] 0 with from_cache := true } :=
  C6_get_returns_alias c6cfg ⟨[c6r], [(QueryCache.makeKey "q" "m" "u", 0, 0)]⟩
    1 "q" "m" "u" 0 0 rfl (by decide) (by decide) (by decide)

/-! ### Claim C7: non-quota completion errors surface immediately -/

/-- C7 (confirmed): when the completion call fails with an error that the
quota/rate-limit classifier rejects (for example auth or malformed
request), `_generate_answer` immediately produces the user-visible error
string `生成回答時發生錯誤：<e>` as the answer, and the invocation trace
contains only the failing client — no fallback attempt is made against any
provider. -/
theorem C7_nonquota_no_fallback (env : Env) (buildOk : String → String → Bool)
    (invoke : String × String → Except String String) (model : String)
    (llm : String × String) (e : String)
    (hllm : Router.getLlm env buildOk model = some llm)
    (hinv : invoke llm = .error e)
    (hq : Router.isQuotaError e = false) :
    Router.generateAnswerLlm env buildOk invoke model
      = .ok (Router.genErrMsg e, [llm]) := by
  simp only [Router.generateAnswerLlm, hllm, hinv, hq, Bool.false_eq_true,
    ite_false]

/-- Witness for C7 at a concrete input: an auth failure on the single
openai provider is surfaced directly with no second invocation. -/
theorem C7_nonquota_no_fallback_w :
    Router.generateAnswerLlm [("LLM_PROVIDER", "openai")] (fun _ _ => true)
      (fun _ => .error "HTTP 401 Unauthorized") "gpt-4o-mini"
      = .ok (Router.genErrMsg "HTTP 401 Unauthorized", [("openai", "gpt-4o-mini")]) :=
  C7_nonquota_no_fallback [("LLM_PROVIDER", "openai")] (fun _ _ => true)
    (fun _ => .error "HTTP 401 Unauthorized") "gpt-4o-mini"
    ("openai", "gpt-4o-mini") "HTTP 401 Unauthorized" rfl rfl rfl

/-! ### Claim C1: auto-mode quota failover -/

/-- C1 counterexample: the failing call uses the SIMPLE slot and the
fallback provider (openai) has a SIMPLE-slot model (`gpt-s`) that would
succeed, yet the code requests the COMPLEX-slot env model (`gpt-c`) and
resolves it through `_get_llm`, which in auto mode builds the primary
(anthropic) client again — so both invocations in the trace go to
anthropic, the openai fallback is never invoked, and the combined failure
message is returned despite a healthy fallback provider. -/
theorem C1_failover_cex :
    Router.generateAnswerLlm c1env (fun _ _ => true) c1invoke "claude-s"
      = .ok (Router.combinedFailMsg,
          [("anthropic", "claude-s"), ("anthropic", "claude-d")]) ∧
    Router.inferSlot c1env "claude-s" = "SIMPLE" ∧
    getenv c1env "OPENAI_MODEL_SIMPLE" = some "gpt-s" ∧
    c1invoke ("openai", "gpt-s") = .ok "fallback answer" :=
  ⟨rfl, rfl, rfl, rfl⟩

/-- C1 (corrected): on a quota-classified failure the router makes exactly
one additional completion attempt; the model it requests for that attempt
is the fallback provider's COMPLEX-slot env model (hard-coded defaults
`gpt-4o` / `claude-sonnet-4-20250514`), regardless of the slot of the
failing call, and the client actually invoked is whatever `_get_llm`
resolves for that model name — in auto mode the primary provider whenever
its client construction succeeds, so the fallback provider itself is only
reached when primary construction fails. -/
theorem C1_failover_complex_slot (env : Env) (buildOk : String → String → Bool)
    (invoke : String × String → Except String String) (model : String)
    (llm f : String × String) (e : String)
    (hllm : Router.getLlm env buildOk model = some llm)
    (hinv : invoke llm = .error e)
    (hq : Router.isQuotaError e = true)
    (hfb : Router.getLlm env buildOk (Router.fallbackComplexModel env) = some f) :
    Router.generateAnswerLlm env buildOk invoke model
      = .ok ((match invoke f with
              | .ok a => a
              | .error _ => Router.combinedFailMsg), [llm, f]) := by
  simp only [Router.generateAnswerLlm, hllm, hinv, hq, ite_true, hfb]
  cases invoke f <;> rfl

/-- Witness for C1 (corrected) at the concrete scenario: the one extra
attempt goes to the client `_get_llm` resolves for `gpt-c`, namely the
primary anthropic vendor with its DEFAULT-slot model. -/
theorem C1_failover_complex_slot_w :
    Router.generateAnswerLlm c1env (fun _ _ => true) c1invoke "claude-s"
      = .ok (Router.combinedFailMsg,
          [("anthropic", "claude-s"), ("anthropic", "claude-d")]) :=
  C1_failover_complex_slot c1env (fun _ _ => true) c1invoke "claude-s"
    ("anthropic", "claude-s") ("anthropic", "claude-d") "quota exceeded"
    rfl rfl rfl rfl

/-! ### Claim C9: complexity estimator -/

/-- C9 (confirmed): `estimate_complexity` is a pure function of the query,
the detected-product-model count and the result count; a query of length
200 is classified complex (the length signal alone fires, in particular
with two detected product codes), and a 10-character query with no
detected codes, no comparison/analysis keyword occurrence and result
count 0 trips no signal and is classified simple. -/
theorem C9_complexity (pc : String → Nat) (q : String) (n : Nat) :
    (q.length = 200 → estimate_complexity pc q n = "complex") ∧
    (q.length = 10 → pc q = 0 →
      (∀ kw ∈ COMPARISON_KEYWORDS, strHas q kw = false) →
      (∀ kw ∈ ANALYSIS_KEYWORDS, strHas q kw = false) →
      n = 0 → estimate_complexity pc q n = "simple") := by
  constructor
  · intro h
    simp [estimate_complexity, h]
  · intro hlen hpc hcomp hana hn
    have hc3 : COMPARISON_KEYWORDS.any (fun kw => strHas q kw) = false := by
      rw [List.any_eq_false]
      intro kw hkw
      simp [hcomp kw hkw]
    have hc4 : ANALYSIS_KEYWORDS.any (fun kw => strHas q kw) = false := by
      rw [List.any_eq_false]
      intro kw hkw
      simp [hana kw hkw]
    simp [estimate_complexity, hlen, hpc, hc3, hc4, hn]

/-- Witness for C9: a 200-character query with two detected codes is
complex; the 10-character query "howmanydog" with no detected codes and
no keyword hits and 0 results is simple. -/
theorem C9_complexity_w :
    estimate_complexity (fun _ => 2) (String.mk (List.replicate 200 'a')) 3
      = "complex" ∧
    estimate_complexity (fun _ => 0) "howmanydog" 0 = "simple" :=
  ⟨(C9_complexity (fun _ => 2) (String.mk (List.replicate 200 'a')) 3).1
      (by decide),
   (C9_complexity (fun _ => 0) "howmanydog" 0).2 (by decide) rfl (by decide)
      (by decide) rfl⟩

/-! ### Claim C10: empty-query guard -/

/-- C10 (confirmed): for every query that is empty or whitespace-only,
`ask` returns the fixed invalid-question answer with source type "error"
and the empty info dict, leaving the cache untouched — the result is the
same for every cache state and every collaborator outcome, so neither the
cache nor any retrieval backend nor any completion provider is
consulted. -/
theorem C10_empty_query (cfg : QueryCache.Config) (es : QueryCache.Entries)
    (now : Int) (mode userId : String) (deps : CategorizedQASystem.AskDeps)
    (query : String) (h : pyStrip query = "") :
    CategorizedQASystem.ask cfg es now query mode userId deps
      = .ok (("請輸入有效的問題。", "error", {}), es) := by
  simp only [CategorizedQASystem.ask]
  rw [if_pos (Or.inr h)]

/-- Witness for C10 at a concrete whitespace-only query. -/
theorem C10_empty_query_w :
    CategorizedQASystem.ask c4cfg c4es2 0 "  \t " "smart" "default"
      { personal := ("p", "personal", {}), classified := .technical,
        business := ("b", "business", {}), searchResults := [],
        gen := .error () }
      = .ok (("請輸入有效的問題。", "error", {}), c4es2) :=
  C10_empty_query c4cfg c4es2 0 "smart" "default" _ "  \t " (by decide)

/-! ### Claim C2: ask and exceptions -/

/-- C2 counterexample: `_get_llm` sits outside the `try`/`except` of
`_generate_answer`, so a client-construction failure (for example the
provider library missing, for which `_build` raises RuntimeError) is not
absorbed: with a non-empty query, a cache miss and non-empty search
results, `ask` propagates the exception to the caller instead of
returning a result object.  The first conjunct shows the generation phase
producing exactly that propagating outcome when every build fails. -/
theorem C2_no_exception_cex :
    Router.generateAnswerLlm [("LLM_PROVIDER", "openai")] (fun _ _ => false)
      (fun _ => .ok "x") "gpt-4o-mini" = .error () ∧
    CategorizedQASystem.ask ⟨true, 100, 10⟩ [] 0 "hello" "technical" "default"
      c2deps = .error () :=
  ⟨rfl, rfl⟩

/-- `QueryCache.set` always succeeds when the capacity is positive. -/
theorem set_isSome (cfg : QueryCache.Config) (es : QueryCache.Entries)
    (now : Int) (q m : String) (r : QueryResult) (u : String)
    (hcap : 0 < cfg.maxSize) :
    ∃ es2, QueryCache.set cfg es now q m r u = some es2 := by
  by_cases hen : cfg.enabled = false
  · exact ⟨es, by simp [QueryCache.set, hen]⟩
  · simp only [QueryCache.set, hen, ite_false]
    by_cases hc : cfg.maxSize ≤ es.length
    · have hne : es ≠ [] := by
        intro he
        rw [he] at hc
        simp at hc
        omega
      obtain ⟨p, hp⟩ := minByTs_isSome hne
      obtain ⟨mk, mt⟩ := p
      exact ⟨dictAssign (dictErase es mk) (QueryCache.makeKey q m u) (r, now),
        by simp [hc, hp]⟩
    · exact ⟨dictAssign es (QueryCache.makeKey q m u) (r, now), by simp [hc]⟩

/-- C2 (corrected): `ask` returns a well-formed (answer, sourceType, info)
triple on every path — empty query, cache hit, personal and business
routes, empty search results, and completion-invoke failures (which
`_generate_answer` absorbs into a textual answer) — provided the
generation phase did not raise while obtaining the LLM client and the
cache capacity is positive.  The counterexample shows the remaining hole:
a client-construction failure propagates. -/
theorem C2_wellformed_result (cfg : QueryCache.Config)
    (es : QueryCache.Entries) (now : Int) (query mode userId : String)
    (deps : CategorizedQASystem.AskDeps)
    (hgen : ∃ g, deps.gen = Except.ok g)
    (hcap : 0 < cfg.maxSize) :
    ∃ out es2, CategorizedQASystem.ask cfg es now query mode userId deps
      = .ok (out, es2) := by
  obtain ⟨⟨a, c⟩, hg⟩ := hgen
  have hgen2 : ∀ es3 dt, ∃ out es4,
      CategorizedQASystem.askGenerate cfg es3 now (pyStrip query) mode userId
        deps dt = .ok (out, es4) := by
    intro es3 dt
    simp only [CategorizedQASystem.askGenerate]
    by_cases h1 : dt = DocumentType.business
    · exact ⟨_, _, by rw [if_pos h1]⟩
    · rw [if_neg h1]
      by_cases h2 : deps.searchResults = []
      · exact ⟨_, _, by rw [if_pos h2]⟩
      · rw [if_neg h2, hg]
        obtain ⟨es4, hs⟩ := set_isSome cfg es3 now (pyStrip query) mode
          { answer := a,
            sources := (deps.searchResults.filter (fun r => r.source ≠ "")).map
              (fun r => r.source),
            source_type := dt.value, cost_estimate := c } userId hcap
        simp only [hs]
        exact ⟨_, _, rfl⟩
  have hroute : ∀ es3, ∃ out es4,
      CategorizedQASystem.askRoute cfg es3 now (pyStrip query) mode userId deps
        = .ok (out, es4) := by
    intro es3
    simp only [CategorizedQASystem.askRoute]
    by_cases hb : mode = "smart" ∧ userId ≠ "" ∧ userId ≠ "default"
        ∧ strHas deps.personal.1 "未找到" = false
        ∧ strHas deps.personal.1 "尚無文件" = false
    · rw [if_pos hb]
      obtain ⟨es4, hs⟩ := set_isSome cfg es3 now (pyStrip query) mode
        { answer := deps.personal.1, sources := deps.personal.2.2.sources.getD [],
          source_type := "personal", images := deps.personal.2.2.images.getD [] }
        userId hcap
      exact ⟨_, _, by rw [hs]⟩
    · rw [if_neg hb]
      by_cases hsm : mode = "smart"
      · rw [if_pos hsm]
        exact hgen2 es3 deps.classified
      · rw [if_neg hsm]
        by_cases hp : mode = "personal"
        · exact ⟨_, _, by rw [if_pos hp]⟩
        · rw [if_neg hp]
          exact hgen2 es3 _
  simp only [CategorizedQASystem.ask]
  by_cases hq : query = "" ∨ pyStrip query = ""
  · exact ⟨_, _, by rw [if_pos hq]⟩
  · rw [if_neg hq]
    rcases hget : QueryCache.get cfg es now (pyStrip query) mode userId
      with ⟨_ | o, es1⟩
    · exact hroute es1
    · exact ⟨_, _, rfl⟩

/-- Witness for C2 (corrected) at a concrete input: with a generation
phase that returned an answer, `ask` yields a well-formed triple. -/
theorem C2_wellformed_result_w :
    ∃ out es2, CategorizedQASystem.ask ⟨true, 100, 10⟩ [] 0 "hello" "technical"
      "default"
      { personal := ("p", "personal", {}), classified := .technical,
        business := ("b", "business", {}),
        searchResults := [⟨"doc content", "doc.md", "technical", 1, "keyword"⟩],
        gen := Except.ok ("an answer", [("model", "gpt-4o-mini")]) }
      = .ok (out, es2) :=
  C2_wellformed_result ⟨true, 100, 10⟩ [] 0 "hello" "technical" "default" _
    ⟨("an answer", [("model", "gpt-4o-mini")]), rfl⟩ (by decide)

/-! ### Claim C8: keyword-index scoring -/

/-- Every character list is a prefix of itself under `chPre`. -/
theorem chPre_self (l : List Char) : chPre l l = true := by
  induction l with
  | nil => rfl
  | cons c rest ih => simp [chPre, ih]

/-- Every string contains itself as a substring (as in Python). -/
theorem strHas_self (s : String) : strHas s s = true := by
  cases hs : s.data with
  | nil => simp [strHas, hs, chSub]
  | cons c rest => simp [strHas, hs, chSub, chPre_self]

/-- Unfolding lemma for the empty weight list. -/
theorem weightSum_nil (d : String) : KeywordIndex.weightSum [] d = 0 := rfl

/-- Unfolding lemma for a cons weight list. -/
theorem weightSum_cons (x : String) (w2 : ℚ) (rest : List (String × ℚ))
    (d : String) :
    KeywordIndex.weightSum ((x, w2) :: rest) d
      = (if x = d then w2 else 0) + KeywordIndex.weightSum rest d := rfl

/-- C8 counterexample: for the query term `abc`, document A contains an
exact match of the token and scores 3 (not 2×weight: 2 from the exact
branch plus 1 from the containment branch, which matches the term against
itself); document B contains only substring matches of the token yet
scores 4 > 3.  Both parts of the claim fail: the exact-match contribution
is not 2×weight, and an exact-match document can score strictly below a
substring-only document of equal weights. -/
theorem C8_exact_vs_substring_cex :
    KeywordIndex.docScore c8idx ["abc"] "A" = 3 ∧
    KeywordIndex.docScore c8idx ["abc"] "B" = 4 ∧
    KeywordIndex.docScore c8idx ["abc"] "A"
      < KeywordIndex.docScore c8idx ["abc"] "B" := by
  refine ⟨?_, ?_, ?_⟩ <;>
  norm_num [KeywordIndex.docScore, KeywordIndex.termScore,
    KeywordIndex.exactScore, KeywordIndex.containScore, KeywordIndex.weightSum,
    dictLookup, c8idx,
    show strHas "abc" "abc" = true from rfl,
    show strHas "abcd" "abc" = true from rfl,
    show strHas "abce" "abc" = true from rfl,
    show strHas "abcf" "abc" = true from rfl,
    show strHas "abcg" "abc" = true from rfl,
    show ("abc".length = 3) from rfl,
    show (("A":String) = "B") = False from by simp,
    show (("B":String) = "A") = False from by simp]

/-- C8 (corrected): per query term, an exact token match contributes
2×weight from the exact branch plus — when the term has length ≥ 3 —
another 1×weight from the containment branch (a term contains itself),
for a total of 3×weight; a substring/containment match contributes
1×weight per matching indexed token.  Consequently, among documents each
indexed under a single token with the same nonnegative weight, the
exact-match document scores at least as high as the substring-match
document.  (The headline inequality fails for documents indexed under
several tokens, as the counterexample shows.) -/
theorem C8_exact_vs_substring (t k docA docB : String) (w : ℚ)
    (hw : 0 ≤ w) (htk : t ≠ k) (hd : docA ≠ docB) :
    KeywordIndex.docScore [(t, [(docA, w)]), (k, [(docB, w)])] [t] docA
      = 2 * w + (if 3 ≤ t.length then w else 0) ∧
    KeywordIndex.docScore [(t, [(docA, w)]), (k, [(docB, w)])] [t] docB ≤ w ∧
    KeywordIndex.docScore [(t, [(docA, w)]), (k, [(docB, w)])] [t] docB
      ≤ KeywordIndex.docScore [(t, [(docA, w)]), (k, [(docB, w)])] [t] docA := by
  have hA : KeywordIndex.docScore [(t, [(docA, w)]), (k, [(docB, w)])] [t] docA
      = 2 * w + (if 3 ≤ t.length then w else 0) := by
    simp only [KeywordIndex.docScore, KeywordIndex.termScore,
      KeywordIndex.exactScore, KeywordIndex.containScore,
      weightSum_cons, weightSum_nil,
      dictLookup, List.map_cons, List.map_nil, List.sum_cons, List.sum_nil,
      if_pos rfl, strHas_self, Bool.true_or, Bool.or_self]
    simp [hd, Ne.symm hd, htk, weightSum_cons, weightSum_nil]
  have hB : KeywordIndex.docScore [(t, [(docA, w)]), (k, [(docB, w)])] [t] docB
      = (if 3 ≤ t.length ∧ (strHas k t || strHas t k) = true then w else 0) := by
    simp only [KeywordIndex.docScore, KeywordIndex.termScore,
      KeywordIndex.exactScore, KeywordIndex.containScore,
      weightSum_cons, weightSum_nil,
      dictLookup, List.map_cons, List.map_nil, List.sum_cons, List.sum_nil,
      if_pos rfl, strHas_self, Bool.true_or, Bool.or_self]
    simp [hd, Ne.symm hd, htk, weightSum_cons, weightSum_nil]
  refine ⟨hA, ?_, ?_⟩
  · rw [hB]
    split_ifs
    · exact le_refl w
    · exact hw
  · rw [hA, hB]
    split_ifs <;> linarith

/-- Witness for C8 (corrected) at concrete inputs: exact token `abc` for
document A, superstring token `abcd` for document B, weight 1; document A
scores 3 and document B scores at most 1. -/
theorem C8_exact_vs_substring_w :
    KeywordIndex.docScore [("abc", [("A", 1)]), ("abcd", [("B", 1)])] ["abc"] "A"
      = 2 * 1 + (if 3 ≤ "abc".length then 1 else 0) ∧
    KeywordIndex.docScore [("abc", [("A", 1)]), ("abcd", [("B", 1)])] ["abc"] "B"
      ≤ 1 ∧
    KeywordIndex.docScore [("abc", [("A", 1)]), ("abcd", [("B", 1)])] ["abc"] "B"
      ≤ KeywordIndex.docScore [("abc", [("A", 1)]), ("abcd", [("B", 1)])] ["abc"] "A" :=
  C8_exact_vs_substring "abc" "abcd" "A" "B" 1 (by norm_num) (by decide) (by decide)

/-! ### Claim C3: fan-out dedup invariant -/

theorem subperm_map {α β : Type} (f : α → β) {l1 l2 : List α}
    (h : List.Subperm l1 l2) : List.Subperm (l1.map f) (l2.map f) := by
  obtain ⟨l, hp, hs⟩ := h
  exact ⟨l.map f, hp.map f, hs.map f⟩

theorem subperm_nodup {α : Type} {l1 l2 : List α} (h : List.Subperm l1 l2)
    (h2 : l2.Nodup) : l1.Nodup := by
  obtain ⟨l, hp, hs⟩ := h
  exact hp.nodup (hs.nodup h2)

theorem map_fst_zip_take {α β : Type} :
    ∀ (l1 : List α) (l2 : List β),
      (l1.zip l2).map (fun p => p.1) = l1.take l2.length := by
  intro l1
  induction l1 with
  | nil => intro l2; simp
  | cons a l1 ih =>
    intro l2
    cases l2 with
    | nil => simp
    | cons b l2 => simp [List.zip_cons_cons, ih]

/-- Unfolding lemma: dedup of the empty stream. -/
theorem dedupeLoop_nil (seen : List String) : Search.dedupeLoop [] seen = [] := rfl

/-- Unfolding lemma: dedup of a cons stream. -/
theorem dedupeLoop_cons (r : Search.SearchResult)
    (rest : List Search.SearchResult) (seen : List String) :
    Search.dedupeLoop (r :: rest) seen
      = if Search.fingerprintOf r ∈ seen then Search.dedupeLoop rest seen
        else r :: Search.dedupeLoop rest (Search.fingerprintOf r :: seen) := rfl

/-- Unfolding lemma: keep-first of the empty stream. -/
theorem keepFirst_nil : Search.keepFirst [] = [] := by
  rw [Search.keepFirst]

/-- Unfolding lemma: keep-first of a cons stream. -/
theorem keepFirst_cons (r : Search.SearchResult)
    (rest : List Search.SearchResult) :
    Search.keepFirst (r :: rest)
      = r :: Search.keepFirst (rest.filter
          (fun x => Search.fingerprintOf x ≠ Search.fingerprintOf r)) := by
  rw [Search.keepFirst]

/-- The dedup loop with an arbitrary seen-set equals the declarative
keep-first filter of the candidates whose fingerprint is not yet seen. -/
theorem dedupeLoop_eq_keepFirst_filter (l : List Search.SearchResult) :
    ∀ seen : List String,
      Search.dedupeLoop l seen
        = Search.keepFirst
            (l.filter (fun x => decide (Search.fingerprintOf x ∉ seen))) := by
  induction l with
  | nil => intro seen; rw [dedupeLoop_nil, List.filter_nil, keepFirst_nil]
  | cons r rest ih =>
    intro seen
    by_cases hmem : Search.fingerprintOf r ∈ seen
    · rw [dedupeLoop_cons, if_pos hmem, List.filter_cons,
        if_neg (by simp [hmem])]
      exact ih seen
    · have hfe : (rest.filter
            (fun x => decide (Search.fingerprintOf x ∉ seen))).filter
            (fun x => Search.fingerprintOf x ≠ Search.fingerprintOf r)
          = rest.filter
            (fun x => decide (Search.fingerprintOf x ∉ Search.fingerprintOf r :: seen)) := by
        rw [List.filter_filter]
        apply List.filter_congr
        intro x _
        simp [List.mem_cons, not_or, Bool.and_comm]
      rw [dedupeLoop_cons, if_neg hmem, List.filter_cons,
        if_pos (by simp [hmem]), keepFirst_cons, hfe,
        ih (Search.fingerprintOf r :: seen)]

/-- The fingerprints of the dedup output are duplicate-free and disjoint
from the seen-set. -/
theorem dedupeLoop_fp_nodup (l : List Search.SearchResult) :
    ∀ seen : List String,
      ((Search.dedupeLoop l seen).map Search.fingerprintOf).Nodup ∧
      ∀ f ∈ (Search.dedupeLoop l seen).map Search.fingerprintOf, f ∉ seen := by
  induction l with
  | nil => intro seen; exact ⟨by simp [dedupeLoop_nil], by simp [dedupeLoop_nil]⟩
  | cons r rest ih =>
    intro seen
    by_cases hmem : Search.fingerprintOf r ∈ seen
    · rw [dedupeLoop_cons, if_pos hmem]
      exact ⟨(ih seen).1, (ih seen).2⟩
    · have h2 := ih (Search.fingerprintOf r :: seen)
      rw [dedupeLoop_cons, if_neg hmem]
      constructor
      · rw [List.map_cons, List.nodup_cons]
        exact ⟨fun hin => (h2.2 _ hin) (by simp), h2.1⟩
      · intro f hf
        rw [List.map_cons, List.mem_cons] at hf
        rcases hf with rfl | hf
        · exact hmem
        · intro hfseen
          exact (h2.2 f hf) (by simp [hfseen])

/-- Facts about the Cohere matching loop: every picked result comes from
the candidate list, and the contents of the picked results form a sublist
of the reranked contents (so distinct reranked contents pick distinct
results). -/
theorem cohere_pick_facts (d : List Search.SearchResult) (cs : List String) :
    (∀ r ∈ cs.filterMap (fun c => d.find? (fun x => x.content = c)), r ∈ d) ∧
    List.Sublist
      ((cs.filterMap (fun c => d.find? (fun x => x.content = c))).map
        (fun r => r.content)) cs := by
  induction cs with
  | nil => simp
  | cons c cs ih =>
    cases hf : d.find? (fun x => x.content = c) with
    | none =>
      simp only [List.filterMap_cons, hf]
      exact ⟨ih.1, ih.2.trans (List.sublist_cons_self c cs)⟩
    | some r =>
      have hrc : r.content = c := by
        have h6 := List.find?_some hf
        simpa using h6
      have hrd : r ∈ d := List.mem_of_find?_eq_some hf
      simp only [List.filterMap_cons, hf]
      constructor
      · intro x hx
        rcases List.mem_cons.mp hx with rfl | hx
        · exact hrd
        · exact ih.1 x hx
      · rw [List.map_cons, hrc]
        exact ih.2.cons₂ c

/-- Unfolding lemma: reranking a non-empty list, disabled backend. -/
theorem rerankFn_disabled_eq {res : List Search.SearchResult} (h : res ≠ [])
    (topN : Nat) :
    Search.rerankFn (.disabled topN) res = res.take topN := by
  unfold Search.rerankFn
  rw [if_neg h]

/-- Unfolding lemma: reranking a non-empty list, local cross-encoder. -/
theorem rerankFn_localCE_eq {res : List Search.SearchResult} (h : res ≠ [])
    (topN : Nat) (scores : List ℚ) :
    Search.rerankFn (.localCE topN scores) res
      = (((res.zip scores).mergeSort (fun a b => b.2 ≤ a.2)).take topN).map
          (fun p => p.1) := by
  unfold Search.rerankFn
  rw [if_neg h]

/-- Unfolding lemma: reranking a non-empty list, Cohere backend. -/
theorem rerankFn_cohere_eq {res : List Search.SearchResult} (h : res ≠ [])
    (topN : Nat) (cs : List String) :
    Search.rerankFn (.cohere topN cs) res
      = (cs.take topN).filterMap (fun c => res.find? (fun r => r.content = c)) := by
  unfold Search.rerankFn
  rw [if_neg h]

/-- Reranking preserves fingerprint duplicate-freedom (for the Cohere
backend, under its duplicate-free output contract). -/
theorem rerankFn_fp_nodup (rr : Search.RerankCfg)
    (res : List Search.SearchResult)
    (hres : (res.map Search.fingerprintOf).Nodup) (hrr : rerankDupFree rr) :
    ((Search.rerankFn rr res).map Search.fingerprintOf).Nodup := by
  by_cases hnil : res = []
  · subst hnil
    have : Search.rerankFn rr [] = [] := by
      unfold Search.rerankFn
      rw [if_pos rfl]
    rw [this]
    simp
  · cases rr with
    | disabled topN =>
      rw [rerankFn_disabled_eq hnil]
      exact ((List.take_sublist topN res).map Search.fingerprintOf).nodup hres
    | localCE topN scores =>
      rw [rerankFn_localCE_eq hnil]
      have h1 : List.Subperm
          (((res.zip scores).mergeSort (fun a b => b.2 ≤ a.2)).take topN)
          (res.zip scores) :=
        (List.take_sublist _ _).subperm.trans
          (List.mergeSort_perm (res.zip scores) _).subperm
      have h2 := subperm_map (fun p => p.1) h1
      rw [map_fst_zip_take res scores] at h2
      have h3 := subperm_map Search.fingerprintOf h2
      refine subperm_nodup h3 ?_
      rw [List.map_take]
      exact (List.take_sublist _ _).nodup hres
    | cohere topN cs =>
      rw [rerankFn_cohere_eq hnil]
      obtain ⟨hsub, hsl⟩ := cohere_pick_facts res (cs.take topN)
      have hcs : (cs.take topN).Nodup := (List.take_sublist _ _).nodup hrr
      have hcont := hsl.nodup hcs
      have hout := hcont.of_map
      refine List.Nodup.map_on ?_ hout
      intro x hx y hy hfp
      exact List.inj_on_of_nodup_map hres (hsub x hx) (hsub y hy) hfp

/-- `searchFn` written without the intermediate lets. -/
theorem searchFn_eq (docType : String) (topK : Nat)
    (variants : List Search.VariantHits) (rr : Search.RerankCfg) :
    Search.searchFn docType topK variants rr
      = (if Search.dedupeLoop (Search.searchStream docType topK variants) [] = []
         then Search.dedupeLoop (Search.searchStream docType topK variants) []
         else Search.rerankFn rr
           (Search.dedupeLoop (Search.searchStream docType topK variants) [])).take
          topK := rfl

/-- C3 (confirmed): for every query (variant hits), every `topK` and every
reranker configuration whose external call honours its contract
(`rerankDupFree`: the Cohere compressor returns no duplicate contents —
vacuous for the disabled and local backends), `_search` returns at most
`topK` results, no two returned results share a content fingerprint
(the 200-character prefix standing for `hash(content[:200])`), and the
dedup stage keeps exactly the first occurrence of each fingerprint in the
candidate stream, dropping every later duplicate entirely. -/
theorem C3_search_dedup (docType : String) (topK : Nat)
    (variants : List Search.VariantHits) (rr : Search.RerankCfg)
    (hrr : rerankDupFree rr) :
    (Search.searchFn docType topK variants rr).length ≤ topK ∧
    ((Search.searchFn docType topK variants rr).map Search.fingerprintOf).Nodup ∧
    Search.dedupeLoop (Search.searchStream docType topK variants) []
      = Search.keepFirst (Search.searchStream docType topK variants) := by
  refine ⟨?_, ?_, ?_⟩
  · rw [searchFn_eq]
    exact List.length_take_le _ _
  · rw [searchFn_eq]
    have hd := (dedupeLoop_fp_nodup (Search.searchStream docType topK variants) []).1
    by_cases h : Search.dedupeLoop (Search.searchStream docType topK variants) [] = []
    · rw [if_pos h, h]
      simp
    · rw [if_neg h]
      have h2 := rerankFn_fp_nodup rr _ hd hrr
      rw [List.map_take]
      exact (List.take_sublist _ _).nodup h2
  · rw [dedupeLoop_eq_keepFirst_filter]
    congr 1
    simp

/-- Witness for C3 at a concrete input: two variants whose backends return
an overlapping pair of documents, with reranking disabled. -/
theorem C3_search_dedup_w :
    (Search.searchFn "technical" 10
      [⟨[⟨"alpha doc", "a.md", 1, false⟩], [⟨"beta doc", "b.md"⟩], []⟩,
       ⟨[⟨"alpha doc", "a.md", 2, true⟩], [], []⟩]
      (.disabled 5)).length ≤ 10 ∧
    ((Search.searchFn "technical" 10
      [⟨[⟨"alpha doc", "a.md", 1, false⟩], [⟨"beta doc", "b.md"⟩], []⟩,
       ⟨[⟨"alpha doc", "a.md", 2, true⟩], [], []⟩]
      (.disabled 5)).map Search.fingerprintOf).Nodup ∧
    Search.dedupeLoop (Search.searchStream "technical" 10
      [⟨[⟨"alpha doc", "a.md", 1, false⟩], [⟨"beta doc", "b.md"⟩], []⟩,
       ⟨[⟨"alpha doc", "a.md", 2, true⟩], [], []⟩]) []
      = Search.keepFirst (Search.searchStream "technical" 10
      [⟨[⟨"alpha doc", "a.md", 1, false⟩], [⟨"beta doc", "b.md"⟩], []⟩,
       ⟨[⟨"alpha doc", "a.md", 2, true⟩], [], []⟩]) :=
  C3_search_dedup "technical" 10
    [⟨[⟨"alpha doc", "a.md", 1, false⟩], [⟨"beta doc", "b.md"⟩], []⟩,
     ⟨[⟨"alpha doc", "a.md", 2, true⟩], [], []⟩]
    (.disabled 5) trivial

end Rag
